import Mathlib

/-!
# Task Management System — formal model of the mock API

A shallow embedding of the localStorage-backed mock REST API found in
`src/pages/NewApp.jsx` (the `api` object built inside `App`):
RBAC helpers, auth (`login` / `logout` / `me`), users (`list` / `create`)
and tasks (`list` / `create` / `update` / `remove`).

Modelling conventions:
* JavaScript strings stay `String`; roles and statuses are the string
  literals compared with `===` in the source.
* ISO timestamp strings (`nowISO()`) are modelled as `Nat` instants; the
  source only ever compares them through `new Date(...)`, which is
  monotone on ISO strings, so ordering is preserved.
* `Math.random()`-based `uid()` and the current time are passed in as
  explicit `newId` / `now` parameters.
* Absent object fields (`undefined`) are `Option.none`; the JS truthiness
  defaulting `a || b` on string fields (where `""` is falsy) is `jsOrStr`.
* `localStorage` state is the explicit record `St`; every mutating
  operation returns its result together with the next state, and a thrown
  error leaves the state it had not yet written to unchanged, exactly as
  the source throws before calling `writeJSON`.
* `Array.prototype.sort` (required stable by ECMAScript) with comparator
  `(a, b) => new Date(b.createdAt) - new Date(a.createdAt)` is modelled by
  the stable `List.insertionSort` under the relation `createdAtDesc`.
-/

namespace TMS

/-- A stored user record (`LS_USERS` entries). The mock keeps the
plaintext password in the record. -/
structure User where
  id : String
  name : String
  email : String
  role : String
  password : String
  createdAt : Nat
deriving Repr, DecidableEq

/-- A user record as returned by `users.list` / `users.create`, i.e. after
`({ password, ...rest }) => rest`: the same fields minus `password`. -/
structure SanitizedUser where
  id : String
  name : String
  email : String
  role : String
  createdAt : Nat
deriving Repr, DecidableEq

/-- Models `({ password, ...rest }) => rest` — drop the password field. -/
def User.sanitize (u : User) : SanitizedUser :=
  { id := u.id, name := u.name, email := u.email, role := u.role, createdAt := u.createdAt }

/-- A stored task record (`LS_TASKS` entries). -/
structure Task where
  id : String
  title : String
  description : String
  status : String
  priority : String
  createdAt : Nat
  updatedAt : Nat
  createdBy : String
  assignedTo : String
  dueDate : Option String
deriving Repr, DecidableEq

/-- The `LS_SESSION` record `{ token, userId, at }`. -/
structure Session where
  token : String
  userId : String
  issuedAt : Nat
deriving Repr, DecidableEq

/-- The whole localStorage-backed store: `LS_USERS`, `LS_TASKS`, `LS_SESSION`. -/
structure St where
  users : List User
  tasks : List Task
  session : Option Session
deriving Repr, DecidableEq

/-- The errors the mock API throws (§7 of the spec names them):
401 on login → `invalidCredentials`; "Unauthorized" → `unauthorized`;
403 → `forbidden`; 409 → `duplicateEmail`; "Not found" → `notFound`. -/
inductive ApiError where
  | invalidCredentials
  | unauthorized
  | forbidden
  | duplicateEmail
  | notFound
deriving Repr, DecidableEq

instance {ε α : Type} [DecidableEq ε] [DecidableEq α] : DecidableEq (Except ε α) :=
  fun a b =>
    match a, b with
    | Except.ok x, Except.ok y =>
        if h : x = y then isTrue (by rw [h]) else isFalse (by simp [h])
    | Except.error e, Except.error f =>
        if h : e = f then isTrue (by rw [h]) else isFalse (by simp [h])
    | Except.ok _, Except.error _ => isFalse (by simp)
    | Except.error _, Except.ok _ => isFalse (by simp)

/-- JS `v || d` for an optional string field: `undefined` and `""` are
falsy and fall back to the default. -/
def jsOrStr (v : Option String) (d : String) : String :=
  match v with
  | none => d
  | some s => if s = "" then d else s

/-- JS `v || null` for an optional string field: `undefined` and `""`
become `null`. -/
def jsOrNull (v : Option String) : Option String :=
  match v with
  | none => none
  | some s => if s = "" then none else some s

/-- Strip a leading character sequence: `stripPre p s = some r` iff
`s = p ++ r`.  Models `token.startsWith(p)` followed by removing the
first occurrence of `p` (`token.replace(p, "")`), which, given the
`startsWith` guard, removes exactly the leading copy. -/
def stripPre : List Char → List Char → Option (List Char)
  | [], s => some s
  | _ :: _, [] => none
  | c :: p, d :: s => if c = d then stripPre p s else none

/-- Whether `needle` occurs as a contiguous run inside `hay`
(JS `hay.includes(needle)`). -/
def listIncludes (needle : List Char) : List Char → Bool
  | [] => needle.isEmpty
  | c :: t => needle.isPrefixOf (c :: t) || listIncludes needle t

/-- JS `hay.includes(sub)` on strings. -/
def strIncludes (hay sub : String) : Bool :=
  listIncludes sub.data hay.data

/-- JS `s.toLowerCase()` : lower-case character by character
(`String.toLower` rendered over the character list so that it reduces). -/
def strToLower (s : String) : String :=
  String.mk (s.data.map Char.toLower)

/-- The source's `createToken`: ``mock-token-${user.id}``. -/
def createToken (u : User) : String :=
  "mock-token-" ++ u.id

/-- The source's `getUserFromToken`: reject tokens that do not start with
`"mock-token-"`, otherwise strip that leading tag and look the remainder
up as a user id (`users.find((u) => u.id === id)`). -/
def getUserFromToken (users : List User) (token : String) : Option User :=
  match stripPre "mock-token-".data token.data with
  | none => none
  | some rest => users.find? (fun u => u.id == String.mk rest)

/-- Models `canManageUsers`: `user?.role === "admin"`. -/
def canManageUsers (u : User) : Bool :=
  u.role == "admin"

/-- Models `canAssignTasks`: admin or manager. -/
def canAssignTasks (u : User) : Bool :=
  u.role == "admin" || u.role == "manager"

/-- Models `canDeleteTask`: admin, manager, or a member on a task they created. -/
def canDeleteTask (u : User) (t : Task) : Bool :=
  u.role == "admin" || u.role == "manager" || (u.role == "member" && t.createdBy == u.id)

/-- Models `canUpdateTask`: admin, manager, or a member on a task they created. -/
def canUpdateTask (u : User) (t : Task) : Bool :=
  u.role == "admin" || u.role == "manager" || (u.role == "member" && t.createdBy == u.id)

/-- Models `api.auth.login`: find the first user with this exact email+password;
throw 401 (without touching the session) if none, otherwise write the
session record and return `{ token, user }` — the full stored record. -/
def login (st : St) (email password : String) (now : Nat) :
    Except ApiError (String × User) × St :=
  match st.users.find? (fun u => u.email == email && u.password == password) with
  | none => (Except.error ApiError.invalidCredentials, st)
  | some user =>
      (Except.ok (createToken user, user),
       { st with session := some { token := createToken user, userId := user.id, issuedAt := now } })

/-- Models `api.auth.logout`: drop the session record. -/
def logout (st : St) : St :=
  { st with session := none }

/-- Models `api.auth.me`: read the session; `null` if absent or its token is
falsy or does not resolve to a user, else `{ token, user }`. -/
def me (st : St) : Option (String × User) :=
  match st.session with
  | none => none
  | some sess =>
      if sess.token = "" then none
      else
        match getUserFromToken st.users sess.token with
        | none => none
        | some user => some (sess.token, user)

/-- Models `api.users.list`: requires a resolvable token, then returns every
stored user through the password-stripping map. -/
def listUsers (st : St) (token : String) : Except ApiError (List SanitizedUser) :=
  match getUserFromToken st.users token with
  | none => Except.error ApiError.unauthorized
  | some _ => Except.ok (st.users.map User.sanitize)

/-- The request body of `users.create`. -/
structure UserPayload where
  name : String
  email : String
  role : String
  password : Option String
deriving Repr, DecidableEq

/-- Models `api.users.create`: 403 unless the token resolves to an admin; 409 if
some stored user already has the payload's email; otherwise append the
new user (password defaulting to `"password"`) and return it sanitized. -/
def createUser (st : St) (token : String) (payload : UserPayload)
    (newId : String) (now : Nat) : Except ApiError SanitizedUser × St :=
  match getUserFromToken st.users token with
  | none => (Except.error ApiError.forbidden, st)
  | some me_ =>
      if canManageUsers me_ then
        if st.users.any (fun u => u.email == payload.email) then
          (Except.error ApiError.duplicateEmail, st)
        else
          let newUser : User :=
            { id := newId, name := payload.name, email := payload.email,
              role := payload.role, password := jsOrStr payload.password "password",
              createdAt := now }
          (Except.ok newUser.sanitize, { st with users := st.users ++ [newUser] })
      else (Except.error ApiError.forbidden, st)

/-- The query of `tasks.list`. -/
structure TaskQuery where
  page : Nat
  pageSize : Nat
  status : Option String
  search : Option String
deriving Repr, DecidableEq

/-- The response of `tasks.list`. -/
structure TaskPage where
  items : List Task
  total : Nat
  page : Nat
  pageSize : Nat
  totalPages : Nat
deriving Repr, DecidableEq

/-- Models `if (status && status !== "all") tasks = tasks.filter(t => t.status === status)`. -/
def applyStatusFilter (status : Option String) (tasks : List Task) : List Task :=
  match status with
  | none => tasks
  | some s => if s = "" ∨ s = "all" then tasks else tasks.filter (fun t => t.status == s)

/-- Models the search branch: lowercase the query once, keep tasks whose
lowered `title` or `description` contains it (`t.title.toLowerCase().includes(s)`
or the same on `(t.description || "")`). -/
def applySearchFilter (search : Option String) (tasks : List Task) : List Task :=
  match search with
  | none => tasks
  | some s =>
      if s = "" then tasks
      else
        tasks.filter (fun t =>
          strIncludes (strToLower t.title) (strToLower s) ||
          strIncludes (strToLower t.description) (strToLower s))

/-- The comparator `(a, b) => new Date(b.createdAt) - new Date(a.createdAt)`
as a relation: `a` may come before `b` when `b.createdAt ≤ a.createdAt`. -/
def createdAtDesc (a b : Task) : Prop :=
  b.createdAt ≤ a.createdAt

instance : DecidableRel createdAtDesc :=
  fun a b => inferInstanceAs (Decidable (b.createdAt ≤ a.createdAt))

instance : IsTotal Task createdAtDesc :=
  ⟨fun a b => Nat.le_total b.createdAt a.createdAt⟩

instance : IsTrans Task createdAtDesc :=
  ⟨fun _ _ _ hab hbc => Nat.le_trans hbc hab⟩

/-- Models `tasks.sort((a, b) => new Date(b.createdAt) - new Date(a.createdAt))`:
the ECMAScript-mandated stable sort under this comparator, rendered by the
stable insertion sort. -/
def sortByCreatedAtDesc (tasks : List Task) : List Task :=
  tasks.insertionSort createdAtDesc

/-- Models `api.tasks.list`: unauthorized unless the token resolves; then filter
by status, filter by search, sort descending by `createdAt`, and slice
`[(page-1)*pageSize, page*pageSize)` (1-indexed pages), reporting the
pre-slice `total` and `totalPages = Math.ceil(total / pageSize)`
(the `Nat` ceiling `(total + pageSize - 1) / pageSize`, which agrees with
`Math.ceil` for every `pageSize ≥ 1`). -/
def listTasks (st : St) (token : String) (q : TaskQuery) : Except ApiError TaskPage :=
  match getUserFromToken st.users token with
  | none => Except.error ApiError.unauthorized
  | some _ =>
      let sorted := sortByCreatedAtDesc (applySearchFilter q.search (applyStatusFilter q.status st.tasks))
      Except.ok
        { items := (sorted.drop ((q.page - 1) * q.pageSize)).take q.pageSize,
          total := sorted.length,
          page := q.page,
          pageSize := q.pageSize,
          totalPages := (sorted.length + q.pageSize - 1) / q.pageSize }

/-- The request body of `tasks.create`. -/
structure TaskPayload where
  title : String
  description : Option String
  status : Option String
  priority : Option String
  assignedTo : Option String
  dueDate : Option String
deriving Repr, DecidableEq

/-- Models `api.tasks.create`: unauthorized unless the token resolves; default
`assignedTo` to the requester and force it back to the requester when a
member tries to point it elsewhere; default `description`/`status`/
`priority`/`dueDate`; stamp id and timestamps; append the task. -/
def createTask (st : St) (token : String) (payload : TaskPayload)
    (newId : String) (now : Nat) : Except ApiError Task × St :=
  match getUserFromToken st.users token with
  | none => (Except.error ApiError.unauthorized, st)
  | some me_ =>
      let assignedTo0 := jsOrStr payload.assignedTo me_.id
      let assignedTo := if me_.role = "member" ∧ assignedTo0 ≠ me_.id then me_.id else assignedTo0
      let newTask : Task :=
        { id := newId, title := payload.title,
          description := jsOrStr payload.description "",
          status := jsOrStr payload.status "todo",
          priority := jsOrStr payload.priority "medium",
          createdAt := now, updatedAt := now,
          createdBy := me_.id, assignedTo := assignedTo,
          dueDate := jsOrNull payload.dueDate }
      (Except.ok newTask, { st with tasks := st.tasks ++ [newTask] })

/-- The request body of `tasks.update`. Each field is `none` when the key
is absent from the payload; `dueDate` distinguishes an absent key from an
explicit `null` (`some none`), which the spread `{ ...t, ...payload }`
does write. -/
structure UpdatePayload where
  id : Option String
  title : Option String
  description : Option String
  status : Option String
  priority : Option String
  createdAt : Option Nat
  createdBy : Option String
  assignedTo : Option String
  dueDate : Option (Option String)
deriving Repr, DecidableEq

/-- Models the merge `tasks[idx] = (spread of t, then payload, then the computed assignedTo and a fresh updatedAt)`:
every payload key overwrites the stored field, except that `assignedTo`
reverts to the stored value when the payload carries the key but the
requester cannot assign tasks, and `updatedAt` is always stamped. -/
def mergeTask (me_ : User) (t : Task) (payload : UpdatePayload) (now : Nat) : Task :=
  { id := payload.id.getD t.id,
    title := payload.title.getD t.title,
    description := payload.description.getD t.description,
    status := payload.status.getD t.status,
    priority := payload.priority.getD t.priority,
    createdAt := payload.createdAt.getD t.createdAt,
    updatedAt := now,
    createdBy := payload.createdBy.getD t.createdBy,
    assignedTo :=
      if payload.assignedTo.isSome && !(canAssignTasks me_) then t.assignedTo
      else payload.assignedTo.getD t.assignedTo,
    dueDate := payload.dueDate.getD t.dueDate }

/-- Models `tasks[idx] = ...` at `idx = tasks.findIndex(t => t.id === id)`:
replace the first task whose id matches. -/
def replaceFirst (tasks : List Task) (id : String) (t' : Task) : List Task :=
  match tasks with
  | [] => []
  | t :: ts => if t.id == id then t' :: ts else t :: replaceFirst ts id t'

/-- Models `api.tasks.update`: unauthorized unless the token resolves; not-found
unless some task matches `id`; forbidden unless `canUpdateTask`; else
merge the payload over the first matching task and store it back. -/
def updateTask (st : St) (token id : String) (payload : UpdatePayload) (now : Nat) :
    Except ApiError Task × St :=
  match getUserFromToken st.users token with
  | none => (Except.error ApiError.unauthorized, st)
  | some me_ =>
      match st.tasks.find? (fun t => t.id == id) with
      | none => (Except.error ApiError.notFound, st)
      | some t =>
          if canUpdateTask me_ t then
            (Except.ok (mergeTask me_ t payload now),
             { st with tasks := replaceFirst st.tasks id (mergeTask me_ t payload now) })
          else (Except.error ApiError.forbidden, st)

/-- Models `api.tasks.remove`: unauthorized unless the token resolves; not-found
unless some task matches `id`; forbidden unless `canDeleteTask`; else keep
exactly the tasks whose id differs. -/
def removeTask (st : St) (token id : String) : Except ApiError Unit × St :=
  match getUserFromToken st.users token with
  | none => (Except.error ApiError.unauthorized, st)
  | some me_ =>
      match st.tasks.find? (fun t => t.id == id) with
      | none => (Except.error ApiError.notFound, st)
      | some t =>
          if canDeleteTask me_ t then
            (Except.ok (), { st with tasks := st.tasks.filter (fun x => !(x.id == id)) })
          else (Except.error ApiError.forbidden, st)

/-- The `items` field `tasks.list` answers for page `p` (empty on error);
used to talk about concatenating consecutive pages. -/
def pageItemsOf (st : St) (token : String) (status search : Option String)
    (pageSize p : Nat) : List Task :=
  match listTasks st token { page := p, pageSize := pageSize, status := status, search := search } with
  | Except.ok pg => pg.items
  | Except.error _ => []

/-! Concrete fixtures, mirroring the seeded demo users, used by the
witnesses and counterexamples below. -/

/-- The seeded admin (concrete ids replace the random `uid()` output). -/
def adminU : User :=
  { id := "A", name := "Alice Admin", email := "admin@demo.com",
    role := "admin", password := "admin", createdAt := 0 }

/-- The seeded manager. -/
def managerU : User :=
  { id := "G", name := "Mark Manager", email := "manager@demo.com",
    role := "manager", password := "manager", createdAt := 0 }

/-- The seeded member. -/
def memberU : User :=
  { id := "M", name := "Mia Member", email := "member@demo.com",
    role := "member", password := "member", createdAt := 0 }

/-- A task created by the member. -/
def task1 : Task :=
  { id := "t1", title := "Kickoff meeting", description := "Project intro",
    status := "todo", priority := "medium", createdAt := 1, updatedAt := 1,
    createdBy := "M", assignedTo := "M", dueDate := none }

/-- A task created by the admin. -/
def task2 : Task :=
  { id := "t2", title := "Create wireframes", description := "Low-fi screens",
    status := "in-progress", priority := "high", createdAt := 2, updatedAt := 2,
    createdBy := "A", assignedTo := "A", dueDate := none }

/-- A store with the three seeded users and two tasks. -/
def baseSt : St :=
  { users := [adminU, managerU, memberU], tasks := [task1, task2], session := none }

/-- An update payload with every key absent. -/
def emptyUpdate : UpdatePayload :=
  { id := none, title := none, description := none, status := none,
    priority := none, createdAt := none, createdBy := none,
    assignedTo := none, dueDate := none }

/-- The store reached after the member creates a task while trying to
assign it to the admin. -/
def c2St : St :=
  (createTask { users := [adminU, memberU], tasks := [], session := none }
    "mock-token-M"
    { title := "X", description := none, status := none, priority := none,
      assignedTo := some "A", dueDate := none }
    "t9" 1).2

/-- The task the member's `createTask` call of the C3 scenario produces. -/
def mCreated : Task :=
  { id := "t9", title := "X", description := "", status := "todo",
    priority := "medium", createdAt := 3, updatedAt := 3,
    createdBy := "M", assignedTo := "M", dueDate := none }

/-- The state of `task1` after the member attempts to reassign it to the admin. -/
def mUpdated : Task :=
  mergeTask memberU task1 { emptyUpdate with assignedTo := some "A" } 4

/-! ## Helper lemmas -/

/-- Stripping a leading run it was built from gives back the tail. -/
theorem stripPre_append (p s : List Char) : stripPre p (p ++ s) = some s := by
  induction p with
  | nil => rfl
  | cons c p ih => simp [stripPre, ih]

/-- Minted tokens are never the empty string. -/
theorem createToken_ne_empty (u : User) : createToken u ≠ "" := by
  intro h
  have h' : "mock-token-" ++ u.id = "" := h
  have hd : ("mock-token-" ++ u.id).data = "".data := congrArg String.data h'
  rw [String.data_append] at hd
  have hnil : "mock-token-".data = [] := (List.append_eq_nil.mp hd).1
  exact absurd hnil (by decide)

/-- With pairwise-distinct user ids, looking a member of the list up by
its id finds exactly that member. -/
theorem find?_id_of_nodup (users : List User) (u : User)
    (hmem : u ∈ users) (hnodup : (users.map User.id).Nodup) :
    users.find? (fun v => v.id == u.id) = some u := by
  induction users with
  | nil => cases hmem
  | cons w ws ih =>
      rw [List.map_cons, List.nodup_cons] at hnodup
      obtain ⟨hwid, hnd⟩ := hnodup
      rcases List.mem_cons.mp hmem with h | h
      · subst h
        simp [List.find?_cons]
      · by_cases hid : w.id = u.id
        · exact absurd (hid ▸ List.mem_map_of_mem User.id h) hwid
        · have hb : (w.id == u.id) = false := beq_eq_false_iff_ne.mpr hid
          simp only [List.find?_cons, hb, cond_false]
          exact ih h hnd

/-- With pairwise-distinct user ids, a user's minted token resolves back
to that user. -/
theorem getUserFromToken_createToken (users : List User) (u : User)
    (hmem : u ∈ users) (hnodup : (users.map User.id).Nodup) :
    getUserFromToken users (createToken u) = some u := by
  have hdata : (createToken u).data = "mock-token-".data ++ u.id.data :=
    String.data_append "mock-token-" u.id
  unfold getUserFromToken
  rw [hdata, stripPre_append]
  exact find?_id_of_nodup users u hmem hnodup

/-- The `Nat` rendering of `Math.ceil (len / P)` over-approximates: `len`
items fit in `⌈len / P⌉` pages of `P`. -/
theorem le_ceil_mul (len P : Nat) (hP : 0 < P) : len ≤ ((len + P - 1) / P) * P := by
  rcases Nat.eq_zero_or_pos len with h | h
  · subst h; simp
  · have h1 : len + P - 1 = (len - 1) + P := by omega
    rw [h1, Nat.add_div_right _ hP, Nat.succ_mul, Nat.mul_comm]
    have e := Nat.div_add_mod (len - 1) P
    have hb : (len - 1) % P < P := Nat.mod_lt _ hP
    omega

/-- Cutting a list into `⌈len / P⌉` consecutive chunks of `P` and
concatenating them gives the list back (fueled induction). -/
theorem flatten_chunks_aux {α : Type} (P : Nat) (hP : 0 < P) :
    ∀ (n : Nat) (l : List α), l.length ≤ n →
      ((List.range ((l.length + P - 1) / P)).map (fun i => (l.drop (i * P)).take P)).flatten = l := by
  intro n
  induction n with
  | zero =>
      intro l hl
      have hnil : l = [] := List.eq_nil_of_length_eq_zero (Nat.le_zero.mp hl)
      subst hnil
      simp [Nat.div_eq_of_lt (by omega : 0 + P - 1 < P)]
  | succ n ih =>
      intro l hl
      cases l with
      | nil => simp [Nat.div_eq_of_lt (by omega : 0 + P - 1 < P)]
      | cons a l' =>
          have hk : ((a :: l').length + P - 1) / P = ((a :: l').length - 1) / P + 1 := by
            have h1 : (a :: l').length + P - 1 = ((a :: l').length - 1) + P := by
              simp only [List.length_cons]; omega
            rw [h1, Nat.add_div_right _ hP]
          rw [hk, List.range_succ_eq_map, List.map_cons, List.flatten_cons, List.map_map]
          have hfun : ((fun i => (((a :: l').drop (i * P)).take P)) ∘ Nat.succ) =
              fun i => ((((a :: l').drop P).drop (i * P)).take P) := by
            funext i
            simp only [Function.comp_apply, List.drop_drop]
            rw [Nat.succ_mul, Nat.add_comm]
          have hj : ((a :: l').length - 1) / P = (((a :: l').drop P).length + P - 1) / P := by
            rw [List.length_drop]
            rcases le_or_lt P (a :: l').length with hle | hlt
            · congr 1
              simp only [List.length_cons] at hle ⊢
              omega
            · rw [Nat.div_eq_of_lt (by simp only [List.length_cons] at hlt ⊢; omega),
                Nat.div_eq_of_lt (by simp only [List.length_cons] at hlt ⊢; omega)]
          rw [hfun, hj, ih ((a :: l').drop P) (by simp only [List.length_drop, List.length_cons] at hl ⊢; omega)]
          simp only [Nat.zero_mul, List.drop_zero]
          exact List.take_append_drop P (a :: l')

/-- Cutting a list into `⌈len / P⌉` consecutive chunks of `P` and
concatenating them gives the list back. -/
theorem flatten_chunks {α : Type} (P : Nat) (hP : 0 < P) (l : List α) :
    ((List.range ((l.length + P - 1) / P)).map (fun i => (l.drop (i * P)).take P)).flatten = l :=
  flatten_chunks_aux P hP l.length l Nat.le.refl

/-- Every successful `tasks.update` stamps `updatedAt` with the current
instant. -/
theorem updateTask_stamps_updatedAt (st : St) (token id : String) (payload : UpdatePayload)
    (now : Nat) (t' : Task) (h : (updateTask st token id payload now).1 = Except.ok t') :
    t'.updatedAt = now := by
  unfold updateTask at h
  cases hg : getUserFromToken st.users token with
  | none => rw [hg] at h; simp at h
  | some m =>
      rw [hg] at h
      cases hf : st.tasks.find? (fun x => x.id == id) with
      | none => rw [hf] at h; simp at h
      | some t0 =>
          rw [hf] at h
          by_cases hcu : canUpdateTask m t0
          · simp only [hcu, if_true] at h
            have hm : mergeTask m t0 payload now = t' := by
              simpa using h
            rw [← hm]
            rfl
          · simp [hcu] at h

/-! ## Claims -/

/-- C1 counterexample: the claim that `login` returns the sanitized user
record is false — at the seeded store, logging in as the admin returns the
full stored `User`, whose `password` field still carries the stored
plaintext password (it is not stripped). -/
theorem login_returns_password_cex :
    (login baseSt "admin@demo.com" "admin" 5).1 = Except.ok ("mock-token-A", adminU) ∧
    adminU.password = "admin" ∧ adminU.password ≠ "" := by
  refine ⟨by decide, rfl, by decide⟩

/-- C1 (amended): `login` returns a token plus the full matching user
record (password field included, not stripped), and for every valid
session `listUsers` returns every stored user with the password stripped
(`User.sanitize` has no password field). -/
theorem login_full_user_listUsers_sanitized (st : St) (email pw token : String)
    (now : Nat) (u me_ : User)
    (hfind : st.users.find? (fun v => v.email == email && v.password == pw) = some u)
    (htok : getUserFromToken st.users token = some me_) :
    (login st email pw now).1 = Except.ok (createToken u, u) ∧
    listUsers st token = Except.ok (st.users.map User.sanitize) := by
  constructor
  · simp [login, hfind]
  · simp [listUsers, htok]

/-- Witness for C1 (amended) at the seeded store. -/
theorem login_full_user_listUsers_sanitized_witness :
    (login baseSt "admin@demo.com" "admin" 5).1 = Except.ok (createToken adminU, adminU) ∧
    listUsers baseSt "mock-token-A" = Except.ok (baseSt.users.map User.sanitize) :=
  login_full_user_listUsers_sanitized baseSt "admin@demo.com" "admin" "mock-token-A" 5
    adminU adminU (by decide) (by decide)

/-- C2 counterexample: the invariant fails in a reachable state.  From a
store with the admin and the member, the member creates task `t9`
(forced `assignedTo = createdBy = "M"`); the admin then updates `t9`
setting `assignedTo := "A"`.  The resulting store holds a member-created
task with `assignedTo ≠ createdBy` while the creator is still a plain
member. -/
theorem member_task_reassigned_by_admin_cex :
    c2St.tasks.map (fun t => (t.createdBy, t.assignedTo)) = [("M", "M")] ∧
    (updateTask c2St "mock-token-A" "t9" { emptyUpdate with assignedTo := some "A" } 2).2.tasks.map
        (fun t => (t.createdBy, t.assignedTo)) = [("M", "A")] ∧
    memberU.role = "member" := by
  refine ⟨by decide, by decide, rfl⟩

/-- C2 (amended): a member-created task starts with
`assignedTo = createdBy`, and no operation performed by a requester who
lacks assignment rights changes a task's `assignedTo`; a requester who
holds assignment rights (admin/manager) can, however, make `assignedTo`
diverge from `createdBy`. -/
theorem member_assignment_under_nonassigners (st : St) (token : String) (me_ : User)
    (htok : getUserFromToken st.users token = some me_) :
    (∀ payload newId now nt st', me_.role = "member" →
        createTask st token payload newId now = (Except.ok nt, st') →
        nt.assignedTo = nt.createdBy) ∧
    (∀ id payload now t t' st', canAssignTasks me_ = false →
        st.tasks.find? (fun x => x.id == id) = some t →
        updateTask st token id payload now = (Except.ok t', st') →
        t'.assignedTo = t.assignedTo) := by
  constructor
  · intro payload newId now nt st' hrole hEq
    simp only [createTask, htok] at hEq
    injection hEq with h1 h2
    injection h1 with h3
    subst h3
    by_cases hx : jsOrStr payload.assignedTo me_.id = me_.id
    · simp [hx]
    · simp [hrole, hx]
  · intro id payload now t t' st' hca hfind hEq
    simp only [updateTask, htok, hfind] at hEq
    by_cases hcu : canUpdateTask me_ t
    · simp only [hcu, if_true] at hEq
      injection hEq with h1 h2
      injection h1 with h3
      subst h3
      cases hx : payload.assignedTo with
      | none => simp [mergeTask, hca, hx]
      | some x => simp [mergeTask, hca, hx]
    · simp [hcu] at hEq

/-- Witness for C2 (amended): the member creates a task aimed at the
admin (assignment snaps back to the creator) and then tries to reassign
their own `task1` (assignment is left unchanged). -/
theorem member_assignment_under_nonassigners_witness :
    mCreated.assignedTo = mCreated.createdBy ∧ mUpdated.assignedTo = task1.assignedTo :=
  ⟨(member_assignment_under_nonassigners baseSt "mock-token-M" memberU (by decide)).1
      { title := "X", description := none, status := none, priority := none,
        assignedTo := some "A", dueDate := none } "t9" 3 mCreated
      { baseSt with tasks := baseSt.tasks ++ [mCreated] } rfl (by decide),
   (member_assignment_under_nonassigners baseSt "mock-token-M" memberU (by decide)).2
      "t1" { emptyUpdate with assignedTo := some "A" } 4 task1 mUpdated
      { baseSt with tasks := replaceFirst baseSt.tasks "t1" mUpdated } (by decide)
      (by decide) (by decide)⟩

/-- C3: a member's `createTask` always succeeds, forces
`assignedTo` to the requester's own id (equal to `createdBy`) regardless
of the payload, defaults `status` to `"todo"` and `priority` to
`"medium"` when absent, stamps the generated id and the current instant
into `createdAt`/`updatedAt`, and appends the task to the store. -/
theorem member_createTask_forces_self (st : St) (token : String) (payload : TaskPayload)
    (newId : String) (now : Nat) (me_ : User)
    (htok : getUserFromToken st.users token = some me_)
    (hrole : me_.role = "member") :
    ∃ nt, createTask st token payload newId now =
        (Except.ok nt, { st with tasks := st.tasks ++ [nt] }) ∧
      nt.assignedTo = me_.id ∧ nt.createdBy = me_.id ∧
      (payload.status = none → nt.status = "todo") ∧
      (payload.priority = none → nt.priority = "medium") ∧
      nt.id = newId ∧ nt.createdAt = now ∧ nt.updatedAt = now := by
  have hforce :
      (if me_.role = "member" ∧ jsOrStr payload.assignedTo me_.id ≠ me_.id
        then me_.id else jsOrStr payload.assignedTo me_.id) = me_.id := by
    by_cases hx : jsOrStr payload.assignedTo me_.id = me_.id
    · simp [hx]
    · simp [hrole, hx]
  refine ⟨{ id := newId, title := payload.title,
            description := jsOrStr payload.description "",
            status := jsOrStr payload.status "todo",
            priority := jsOrStr payload.priority "medium",
            createdAt := now, updatedAt := now,
            createdBy := me_.id, assignedTo := me_.id,
            dueDate := jsOrNull payload.dueDate }, ?_, rfl, rfl, ?_, ?_, rfl, rfl, rfl⟩
  · simp only [createTask, htok, hforce]
  · intro h; simp [jsOrStr, h]
  · intro h; simp [jsOrStr, h]

/-- Witness for C3: the member creates a task pointing `assignedTo` at
the admin; the theorem applies and the defaults hold. -/
theorem member_createTask_forces_self_witness :
    ∃ nt, createTask baseSt "mock-token-M"
        { title := "X", description := none, status := none, priority := none,
          assignedTo := some "A", dueDate := none } "t9" 3 =
        (Except.ok nt, { baseSt with tasks := baseSt.tasks ++ [nt] }) ∧
      nt.assignedTo = memberU.id ∧ nt.createdBy = memberU.id ∧
      ((none : Option String) = none → nt.status = "todo") ∧
      ((none : Option String) = none → nt.priority = "medium") ∧
      nt.id = "t9" ∧ nt.createdAt = 3 ∧ nt.updatedAt = 3 :=
  member_createTask_forces_self baseSt "mock-token-M"
    { title := "X", description := none, status := none, priority := none,
      assignedTo := some "A", dueDate := none } "t9" 3 memberU (by decide) rfl

/-- C4: with a valid session, `tasks.list` applies the status filter, then
the case-insensitive search filter, then sorts descending by `createdAt`
(the result is a sorted permutation of the filtered list); `items` is the
1-indexed slice `[(page-1)*pageSize, page*pageSize)`, `total` counts
before slicing, `totalPages` is the ceiling `⌈total / pageSize⌉`, and an
out-of-range page yields an empty `items` slice without error. -/
theorem listTasks_filter_sort_paginate (st : St) (token : String) (q : TaskQuery) (me_ : User)
    (htok : getUserFromToken st.users token = some me_) :
    ∃ pg, listTasks st token q = Except.ok pg ∧
      (sortByCreatedAtDesc (applySearchFilter q.search (applyStatusFilter q.status st.tasks))).Perm
        (applySearchFilter q.search (applyStatusFilter q.status st.tasks)) ∧
      List.Sorted createdAtDesc
        (sortByCreatedAtDesc (applySearchFilter q.search (applyStatusFilter q.status st.tasks))) ∧
      pg.items = ((sortByCreatedAtDesc (applySearchFilter q.search (applyStatusFilter q.status st.tasks))).drop
          ((q.page - 1) * q.pageSize)).take q.pageSize ∧
      pg.total = (applySearchFilter q.search (applyStatusFilter q.status st.tasks)).length ∧
      pg.page = q.page ∧ pg.pageSize = q.pageSize ∧
      pg.totalPages = (pg.total + q.pageSize - 1) / q.pageSize ∧
      (1 ≤ q.pageSize → pg.totalPages < q.page → pg.items = []) := by
  have hperm : (sortByCreatedAtDesc (applySearchFilter q.search (applyStatusFilter q.status st.tasks))).Perm
      (applySearchFilter q.search (applyStatusFilter q.status st.tasks)) :=
    List.perm_insertionSort createdAtDesc _
  have hlen := hperm.length_eq
  refine ⟨{ items := ((sortByCreatedAtDesc (applySearchFilter q.search (applyStatusFilter q.status st.tasks))).drop
              ((q.page - 1) * q.pageSize)).take q.pageSize,
            total := (sortByCreatedAtDesc (applySearchFilter q.search (applyStatusFilter q.status st.tasks))).length,
            page := q.page, pageSize := q.pageSize,
            totalPages := ((sortByCreatedAtDesc (applySearchFilter q.search (applyStatusFilter q.status st.tasks))).length
              + q.pageSize - 1) / q.pageSize },
          ?_, hperm, List.sorted_insertionSort createdAtDesc _, rfl, hlen, rfl, rfl, rfl, ?_⟩
  · simp only [listTasks, htok]
  · intro hP hover
    simp only at hover ⊢
    have h1 : (sortByCreatedAtDesc (applySearchFilter q.search (applyStatusFilter q.status st.tasks))).length ≤
        (((sortByCreatedAtDesc (applySearchFilter q.search (applyStatusFilter q.status st.tasks))).length
          + q.pageSize - 1) / q.pageSize) * q.pageSize :=
      le_ceil_mul _ _ hP
    have h2 : (((sortByCreatedAtDesc (applySearchFilter q.search (applyStatusFilter q.status st.tasks))).length
        + q.pageSize - 1) / q.pageSize) ≤ q.page - 1 := by omega
    have hle : (sortByCreatedAtDesc (applySearchFilter q.search (applyStatusFilter q.status st.tasks))).length ≤
        (q.page - 1) * q.pageSize :=
      Nat.le_trans h1 (Nat.mul_le_mul_right _ h2)
    rw [List.drop_eq_nil_of_le hle, List.take_nil]

/-- Witness for C4 at the seeded store: page 2 of size 1 over the two
seeded tasks. -/
theorem listTasks_filter_sort_paginate_witness :
    ∃ pg, listTasks baseSt "mock-token-A" { page := 2, pageSize := 1, status := none, search := none } =
        Except.ok pg ∧
      (sortByCreatedAtDesc (applySearchFilter none (applyStatusFilter none baseSt.tasks))).Perm
        (applySearchFilter none (applyStatusFilter none baseSt.tasks)) ∧
      List.Sorted createdAtDesc
        (sortByCreatedAtDesc (applySearchFilter none (applyStatusFilter none baseSt.tasks))) ∧
      pg.items = ((sortByCreatedAtDesc (applySearchFilter none (applyStatusFilter none baseSt.tasks))).drop
          ((2 - 1) * 1)).take 1 ∧
      pg.total = (applySearchFilter none (applyStatusFilter none baseSt.tasks)).length ∧
      pg.page = 2 ∧ pg.pageSize = 1 ∧
      pg.totalPages = (pg.total + 1 - 1) / 1 ∧
      (1 ≤ 1 → pg.totalPages < 2 → pg.items = []) :=
  listTasks_filter_sort_paginate baseSt "mock-token-A"
    { page := 2, pageSize := 1, status := none, search := none } adminU (by decide)

/-- C5: for every fixed store, filter pair and `pageSize ≥ 1`,
`tasks.list` reports `total` = the filtered count,
`totalPages = ⌈total / pageSize⌉`, and concatenating the `items` of pages
`1` through `totalPages` in order reproduces the entire filtered,
descending-by-`createdAt`-sorted task list — no duplicates, no omissions. -/
theorem listTasks_pages_reconstruct (st : St) (token : String) (status search : Option String)
    (P : Nat) (me_ : User) (hP : 1 ≤ P)
    (htok : getUserFromToken st.users token = some me_) :
    ∃ pg1, listTasks st token { page := 1, pageSize := P, status := status, search := search } =
        Except.ok pg1 ∧
      pg1.total = (applySearchFilter search (applyStatusFilter status st.tasks)).length ∧
      pg1.totalPages = (pg1.total + P - 1) / P ∧
      ((List.range pg1.totalPages).map (fun i => pageItemsOf st token status search P (i + 1))).flatten
        = sortByCreatedAtDesc (applySearchFilter search (applyStatusFilter status st.tasks)) := by
  have hperm : (sortByCreatedAtDesc (applySearchFilter search (applyStatusFilter status st.tasks))).Perm
      (applySearchFilter search (applyStatusFilter status st.tasks)) :=
    List.perm_insertionSort createdAtDesc _
  have hlen := hperm.length_eq
  refine ⟨{ items := ((sortByCreatedAtDesc (applySearchFilter search (applyStatusFilter status st.tasks))).drop
              ((1 - 1) * P)).take P,
            total := (sortByCreatedAtDesc (applySearchFilter search (applyStatusFilter status st.tasks))).length,
            page := 1, pageSize := P,
            totalPages := ((sortByCreatedAtDesc (applySearchFilter search (applyStatusFilter status st.tasks))).length
              + P - 1) / P },
          ?_, hlen, rfl, ?_⟩
  · simp only [listTasks, htok]
  · have hfun : (fun i => pageItemsOf st token status search P (i + 1)) =
        fun i => ((sortByCreatedAtDesc (applySearchFilter search (applyStatusFilter status st.tasks))).drop
          (i * P)).take P := by
      funext i
      simp only [pageItemsOf, listTasks, htok, Nat.add_sub_cancel]
    simp only [hfun]
    exact flatten_chunks P hP _

/-- Witness for C5 at the seeded store with `pageSize = 1`. -/
theorem listTasks_pages_reconstruct_witness :
    ∃ pg1, listTasks baseSt "mock-token-A" { page := 1, pageSize := 1, status := none, search := none } =
        Except.ok pg1 ∧
      pg1.total = (applySearchFilter none (applyStatusFilter none baseSt.tasks)).length ∧
      pg1.totalPages = (pg1.total + 1 - 1) / 1 ∧
      ((List.range pg1.totalPages).map (fun i => pageItemsOf baseSt "mock-token-A" none none 1 (i + 1))).flatten
        = sortByCreatedAtDesc (applySearchFilter none (applyStatusFilter none baseSt.tasks)) :=
  listTasks_pages_reconstruct baseSt "mock-token-A" none none 1 adminU (by decide) (by decide)

/-- C6: over a store whose user ids are pairwise distinct (the data
model's id-uniqueness invariant), a credential pair matching a stored
user makes `login` succeed with a token that `me` (the spec's
`currentSession`) resolves back to that same user, while a pair matching
no stored user makes `login` fail with `invalidCredentials` and leaves
the whole store — the session included — unchanged. -/
theorem login_success_resolves_failure_rejects (st : St) (email pw : String) (now : Nat)
    (hnodup : (st.users.map User.id).Nodup) :
    (∀ u, st.users.find? (fun v => v.email == email && v.password == pw) = some u →
      (login st email pw now).1 = Except.ok (createToken u, u) ∧
      me (login st email pw now).2 = some (createToken u, u)) ∧
    (st.users.find? (fun v => v.email == email && v.password == pw) = none →
      login st email pw now = (Except.error ApiError.invalidCredentials, st)) := by
  constructor
  · intro u hfind
    have hmem := List.mem_of_find?_eq_some hfind
    have hres : getUserFromToken st.users (createToken u) = some u :=
      getUserFromToken_createToken st.users u hmem hnodup
    refine ⟨by simp [login, hfind], ?_⟩
    simp [login, hfind, me, createToken_ne_empty u, hres]
  · intro hnone
    simp [login, hnone]

/-- Witness for C6 at the seeded store: the admin's credentials resolve
back to the admin; a bogus pair is rejected without touching the store. -/
theorem login_success_resolves_failure_rejects_witness :
    ((login baseSt "admin@demo.com" "admin" 5).1 = Except.ok (createToken adminU, adminU) ∧
      me (login baseSt "admin@demo.com" "admin" 5).2 = some (createToken adminU, adminU)) ∧
    login baseSt "nobody@demo.com" "nope" 7 = (Except.error ApiError.invalidCredentials, baseSt) :=
  ⟨(login_success_resolves_failure_rejects baseSt "admin@demo.com" "admin" 5 (by decide)).1
      adminU (by decide),
   (login_success_resolves_failure_rejects baseSt "nobody@demo.com" "nope" 7 (by decide)).2
      (by decide)⟩

/-- C7: a member hitting an existing task they did not create gets
`forbidden` from both `tasks.update` and `tasks.remove`, with the whole
store unchanged, for every payload; an admin or manager requester never
gets `forbidden` from either operation on an existing task. -/
theorem member_foreign_task_forbidden (st : St) (token id : String) (payload : UpdatePayload)
    (now : Nat) (me_ : User) (t : Task)
    (htok : getUserFromToken st.users token = some me_)
    (ht : st.tasks.find? (fun x => x.id == id) = some t) :
    (me_.role = "member" → t.createdBy ≠ me_.id →
      updateTask st token id payload now = (Except.error ApiError.forbidden, st) ∧
      removeTask st token id = (Except.error ApiError.forbidden, st)) ∧
    (me_.role = "admin" ∨ me_.role = "manager" →
      (updateTask st token id payload now).1 ≠ Except.error ApiError.forbidden ∧
      (removeTask st token id).1 ≠ Except.error ApiError.forbidden) := by
  constructor
  · intro hrole hnc
    have hcu : canUpdateTask me_ t = false := by
      simp [canUpdateTask, hrole, hnc]
    have hcd : canDeleteTask me_ t = false := by
      simp [canDeleteTask, hrole, hnc]
    exact ⟨by simp [updateTask, htok, ht, hcu], by simp [removeTask, htok, ht, hcd]⟩
  · intro hrole
    have hcu : canUpdateTask me_ t = true := by
      rcases hrole with h | h <;> simp [canUpdateTask, h]
    have hcd : canDeleteTask me_ t = true := by
      rcases hrole with h | h <;> simp [canDeleteTask, h]
    exact ⟨by simp [updateTask, htok, ht, hcu], by simp [removeTask, htok, ht, hcd]⟩

/-- Witness for C7: the member against the admin-created `task2`, and the
admin against the member-created `task1`. -/
theorem member_foreign_task_forbidden_witness :
    (updateTask baseSt "mock-token-M" "t2" emptyUpdate 9 = (Except.error ApiError.forbidden, baseSt) ∧
      removeTask baseSt "mock-token-M" "t2" = (Except.error ApiError.forbidden, baseSt)) ∧
    ((updateTask baseSt "mock-token-A" "t1" emptyUpdate 9).1 ≠ Except.error ApiError.forbidden ∧
      (removeTask baseSt "mock-token-A" "t1").1 ≠ Except.error ApiError.forbidden) :=
  ⟨(member_foreign_task_forbidden baseSt "mock-token-M" "t2" emptyUpdate 9 memberU task2
      (by decide) (by decide)).1 rfl (by decide),
   (member_foreign_task_forbidden baseSt "mock-token-A" "t1" emptyUpdate 9 adminU task1
      (by decide) (by decide)).2 (Or.inl rfl)⟩

/-- C8: on an authorized member update carrying an `assignedTo` key, the
assignment is silently left unchanged (not rejected) while every other
provided field overwrites the stored one, and `updatedAt` is refreshed
unconditionally on every successful update. -/
theorem member_update_ignores_assignment (st : St) (token id : String) (payload : UpdatePayload)
    (now : Nat) (me_ : User) (t : Task) (x : String)
    (htok : getUserFromToken st.users token = some me_)
    (hrole : me_.role = "member")
    (ht : st.tasks.find? (fun y => y.id == id) = some t)
    (hown : t.createdBy = me_.id)
    (hassigned : payload.assignedTo = some x) :
    ∃ t', updateTask st token id payload now =
        (Except.ok t', { st with tasks := replaceFirst st.tasks id t' }) ∧
      t'.assignedTo = t.assignedTo ∧
      t'.updatedAt = now ∧
      t'.title = payload.title.getD t.title ∧
      t'.description = payload.description.getD t.description ∧
      t'.status = payload.status.getD t.status ∧
      t'.priority = payload.priority.getD t.priority ∧
      t'.dueDate = payload.dueDate.getD t.dueDate ∧
      (∀ st₂ tok₂ id₂ p₂ now₂ u₂, (updateTask st₂ tok₂ id₂ p₂ now₂).1 = Except.ok u₂ →
        u₂.updatedAt = now₂) := by
  have hca : canAssignTasks me_ = false := by
    simp [canAssignTasks, hrole]
  have hcu : canUpdateTask me_ t = true := by
    simp [canUpdateTask, hrole, hown]
  refine ⟨mergeTask me_ t payload now, by simp [updateTask, htok, ht, hcu], ?_, rfl,
    rfl, rfl, rfl, rfl, rfl, ?_⟩
  · simp [mergeTask, hca, hassigned]
  · intro st₂ tok₂ id₂ p₂ now₂ u₂ h
    exact updateTask_stamps_updatedAt st₂ tok₂ id₂ p₂ now₂ u₂ h

/-- Witness for C8: the member updates their own `task1`, retitling it
and pointing `assignedTo` at the admin. -/
theorem member_update_ignores_assignment_witness :
    ∃ t', updateTask baseSt "mock-token-M" "t1"
        { emptyUpdate with title := some "Renamed", assignedTo := some "A" } 9 =
        (Except.ok t', { baseSt with tasks := replaceFirst baseSt.tasks "t1" t' }) ∧
      t'.assignedTo = task1.assignedTo ∧
      t'.updatedAt = 9 ∧
      t'.title = (some "Renamed").getD task1.title ∧
      t'.description = (none : Option String).getD task1.description ∧
      t'.status = (none : Option String).getD task1.status ∧
      t'.priority = (none : Option String).getD task1.priority ∧
      t'.dueDate = (none : Option (Option String)).getD task1.dueDate ∧
      (∀ st₂ tok₂ id₂ p₂ now₂ u₂, (updateTask st₂ tok₂ id₂ p₂ now₂).1 = Except.ok u₂ →
        u₂.updatedAt = now₂) :=
  member_update_ignores_assignment baseSt "mock-token-M" "t1"
    { emptyUpdate with title := some "Renamed", assignedTo := some "A" } 9 memberU task1 "A"
    (by decide) rfl (by decide) (by decide) rfl

/-- C9: against an admin session, `users.create` fails with
`duplicateEmail` whenever the payload's email already exists among stored
users — leaving the user collection unchanged, so it still contains
exactly the same users with that email — and every outcome of
`users.create` preserves pairwise-distinct emails. -/
theorem createUser_duplicate_email (st : St) (token : String) (payload : UserPayload)
    (newId : String) (now : Nat) (me_ : User)
    (htok : getUserFromToken st.users token = some me_)
    (hadmin : me_.role = "admin") :
    ((∃ u, u ∈ st.users ∧ u.email = payload.email) →
      createUser st token payload newId now = (Except.error ApiError.duplicateEmail, st)) ∧
    (∀ r st', createUser st token payload newId now = (r, st') →
      (st.users.map User.email).Nodup → (st'.users.map User.email).Nodup) := by
  have hmu : canManageUsers me_ = true := by simp [canManageUsers, hadmin]
  constructor
  · rintro ⟨u, hu, he⟩
    have hany : st.users.any (fun v => v.email == payload.email) = true :=
      List.any_eq_true.mpr ⟨u, hu, by simp [he]⟩
    simp [createUser, htok, hmu, hany]
  · intro r st' hEq hnodup
    simp only [createUser, htok, hmu, if_true] at hEq
    cases hany : st.users.any (fun v => v.email == payload.email) with
    | true =>
        rw [hany] at hEq
        simp only [if_true] at hEq
        injection hEq with h1 h2
        rw [← h2]
        exact hnodup
    | false =>
        rw [hany] at hEq
        simp only [Bool.false_eq_true, if_false] at hEq
        injection hEq with h1 h2
        rw [← h2]
        have hnotin : payload.email ∉ st.users.map User.email := by
          intro hmemb
          obtain ⟨u, hu, he⟩ := List.mem_map.mp hmemb
          exact (List.any_eq_false.mp hany u hu) (by simp [he])
        simp only [List.map_append, List.map_cons, List.map_nil]
        rw [List.nodup_append]
        refine ⟨hnodup, List.nodup_singleton _, ?_⟩
        intro a ha hb
        simp only [List.mem_singleton] at hb
        subst hb
        exact hnotin ha

/-- Witness for C9: the admin tries to re-create a user with the seeded
admin email, and email distinctness is preserved. -/
theorem createUser_duplicate_email_witness :
    createUser baseSt "mock-token-A"
        { name := "Dup", email := "admin@demo.com", role := "member", password := none } "n1" 9 =
      (Except.error ApiError.duplicateEmail, baseSt) ∧
    (baseSt.users.map User.email).Nodup :=
  ⟨(createUser_duplicate_email baseSt "mock-token-A"
      { name := "Dup", email := "admin@demo.com", role := "member", password := none } "n1" 9
      adminU (by decide) rfl).1 ⟨adminU, by decide, rfl⟩,
   by decide⟩

/-- C10: `tasks.update` does not protect identity or provenance fields —
any `id`, `createdBy` or `createdAt` key in an authorized payload
overwrites the stored task's field; concretely, at the seeded store the
admin renaming `task1`'s id to `"t2"` produces a store whose task ids are
`["t2", "t2"]`, so task-id uniqueness is not preserved by `tasks.update`. -/
theorem updateTask_overwrites_identity (st : St) (token id : String) (payload : UpdatePayload)
    (now : Nat) (me_ : User) (t : Task)
    (htok : getUserFromToken st.users token = some me_)
    (ht : st.tasks.find? (fun x => x.id == id) = some t)
    (hperm : canUpdateTask me_ t = true) :
    (∃ t', (updateTask st token id payload now).1 = Except.ok t' ∧
      (∀ j, payload.id = some j → t'.id = j) ∧
      (∀ cb, payload.createdBy = some cb → t'.createdBy = cb) ∧
      (∀ ca, payload.createdAt = some ca → t'.createdAt = ca)) ∧
    ((updateTask baseSt "mock-token-A" "t1"
        { emptyUpdate with id := some "t2", createdBy := some "A" } 9).2.tasks.map Task.id
      = ["t2", "t2"] ∧
    ¬ ((updateTask baseSt "mock-token-A" "t1"
        { emptyUpdate with id := some "t2", createdBy := some "A" } 9).2.tasks.map Task.id).Nodup ∧
    (updateTask baseSt "mock-token-A" "t1"
        { emptyUpdate with id := some "t2", createdBy := some "A" } 9).2.tasks.map Task.createdBy
      = ["A", "A"]) := by
  constructor
  · refine ⟨mergeTask me_ t payload now, by simp [updateTask, htok, ht, hperm], ?_, ?_, ?_⟩
    · intro j hj; simp [mergeTask, hj]
    · intro cb hcb; simp [mergeTask, hcb]
    · intro ca hca; simp [mergeTask, hca]
  · refine ⟨by decide, by decide, by decide⟩

/-- Witness for C10: the admin rewrites `task1`'s id, creator and
creation instant. -/
theorem updateTask_overwrites_identity_witness :
    (∃ t', (updateTask baseSt "mock-token-A" "t1"
        { emptyUpdate with id := some "t9", createdBy := some "G", createdAt := some 7 } 9).1
        = Except.ok t' ∧
      (∀ j, (some "t9" : Option String) = some j → t'.id = j) ∧
      (∀ cb, (some "G" : Option String) = some cb → t'.createdBy = cb) ∧
      (∀ ca, (some 7 : Option Nat) = some ca → t'.createdAt = ca)) ∧
    ((updateTask baseSt "mock-token-A" "t1"
        { emptyUpdate with id := some "t2", createdBy := some "A" } 9).2.tasks.map Task.id
      = ["t2", "t2"] ∧
    ¬ ((updateTask baseSt "mock-token-A" "t1"
        { emptyUpdate with id := some "t2", createdBy := some "A" } 9).2.tasks.map Task.id).Nodup ∧
    (updateTask baseSt "mock-token-A" "t1"
        { emptyUpdate with id := some "t2", createdBy := some "A" } 9).2.tasks.map Task.createdBy
      = ["A", "A"]) :=
  updateTask_overwrites_identity baseSt "mock-token-A" "t1"
    { emptyUpdate with id := some "t9", createdBy := some "G", createdAt := some 7 } 9
    adminU task1 (by decide) (by decide) (by decide)

end TMS
